import Mathlib

/-!
Verification of the hw-gauge firmware against its specification.

The firmware (src/firmware/src/) receives host performance snapshots over a
USB serial link, deframes them (io.rs), decodes and dispatches them
(main.rs), animates them (perf.rs), and blanks the screen when data stops
arriving (main.rs, no_data_timeout).

This file shallowly embeds the relevant functions:

* io.rs `Serial::read_packet` / `Serial::poll`: the 64-byte receive buffer
  `Serial.buf` with write cursor `buf_next` is modelled as the list of its
  meaningful bytes `Serial.buf` (so the cursor is `buf.length`).  The bytes
  the USB port would deliver on this call are an explicit `incoming` list;
  `port.read(&mut buf[buf_next..])` reads at most the free capacity, and a
  would-block condition is the `incoming = []` / zero-count case.  The Rust
  slice expression `packet_buf[..i + 1]` panics when `i + 1` exceeds the
  destination length; that outcome is made explicit as `ReadResult.panik`.
* main.rs `handle_packet` / `handle_usb_event`: modelled at the level of
  their observable effects (logs, breakpoint, panic via `unwrap`, spawn).
  The postcard decoder is an external crate, so `handle_packet` takes the
  decode `Result` as input, exactly the value its `match` scrutinises.
* main.rs `no_data_timeout`: one iteration of the polling loop body as a
  function of the current `TimeoutState` and the elapsed milliseconds
  (`checked_duration_since` returning `None` is the `Option.none` case).
* perf.rs `update_state` / `update_cpu_load`: `f32` arithmetic is idealised
  as exact rational arithmetic (`ℚ`); the frames the loop passes to
  `app::show_perf::spawn_after` are returned as an explicit list in
  scheduling order.
-/

/-! ## io.rs : packet framer -/

/-- io.rs: `pub const BUF_BYTES: usize = 64;` -/
def BUF_BYTES : Nat := 64

/-- io.rs: `const TERMINATOR: u8 = 0;` -/
def TERMINATOR : Nat := 0

/-- io.rs `Serial`: the receive buffer.  The Rust fixed array `buf` together
with the cursor `buf_next` is modelled by the list of meaningful bytes
`buf[0 .. buf_next)`; bytes past the cursor are never read by the code. -/
structure Serial where
  buf : List Nat
deriving DecidableEq, Repr

/-- Outcome of `Serial::read_packet`.  `ok n` is `Ok(n)`, `overflow` is
`Err(UsbError::BufferOverflow)`, and `panik` is the Rust panic raised by
`packet_buf[..i + 1]` when `i + 1` exceeds `packet_buf.len()`. -/
inductive ReadResult where
  | ok : Nat → ReadResult
  | overflow : ReadResult
  | panik : ReadResult
deriving DecidableEq, Repr

/-- io.rs `Serial::poll`: number of bytes `port.read(&mut buf[buf_next..])`
transfers, capped by the free space in the receive buffer. -/
def readCount (s : Serial) (incoming : List Nat) : Nat :=
  min incoming.length (BUF_BYTES - s.buf.length)

/-- io.rs `Serial::poll`: the receive-buffer contents after draining the
available bytes into `buf` at the write cursor. -/
def drained (s : Serial) (incoming : List Nat) : List Nat :=
  s.buf ++ incoming.take (readCount s incoming)

/-- io.rs `Serial::read_packet(&mut self, packet_buf: &mut [u8])` with
`cap = packet_buf.len()`.  Returns the Rust function's result, the new
`Serial` state, and the bytes copied into `packet_buf`.  Mirrors the source:
poll first, return `Ok(0)` when no new data arrived, otherwise scan
`buf[0 .. buf_next)` for the first `TERMINATOR`; `i > cap` is
`Err(BufferOverflow)`, and the subsequent `packet_buf[..i + 1]` slice
panics when `i + 1 > cap`; otherwise copy the frame out and shift the
trailing bytes to the front of the buffer. -/
def read_packet (s : Serial) (incoming : List Nat) (cap : Nat) :
    ReadResult × Serial × List Nat :=
  if readCount s incoming = 0 then
    (ReadResult.ok 0, ⟨drained s incoming⟩, [])
  else
    match (drained s incoming).findIdx? (fun b => b = TERMINATOR) with
    | some i =>
        if i > cap then (ReadResult.overflow, ⟨drained s incoming⟩, [])
        else if i + 1 > cap then (ReadResult.panik, ⟨drained s incoming⟩, [])
        else (ReadResult.ok (i + 1), ⟨(drained s incoming).drop (i + 1)⟩,
              (drained s incoming).take (i + 1))
    | none => (ReadResult.ok 0, ⟨drained s incoming⟩, [])

/-- C2: when at least one new byte was polled, the first terminator of the
drained buffer sits at offset `i`, and the frame of `i + 1` bytes fits in the
caller's buffer, `read_packet` returns `Ok(i + 1)`, copies exactly the
`i + 1` frame bytes (payload plus terminator) into the caller's buffer,
keeps exactly the trailing bytes `[i + 1 .. cursor)` at the start of the
receive buffer, and the cursor drops by `i + 1`; later terminators stay
buffered, so only this one frame is extracted by the call. -/
theorem read_packet_extracts_first_frame (s : Serial) (incoming : List Nat)
    (cap i : Nat) (hcount : readCount s incoming ≠ 0)
    (hterm : (drained s incoming).findIdx? (fun b => b = TERMINATOR) = some i)
    (hfit : i + 1 ≤ cap) :
    read_packet s incoming cap =
      (ReadResult.ok (i + 1), ⟨(drained s incoming).drop (i + 1)⟩,
        (drained s incoming).take (i + 1)) ∧
    ((drained s incoming).take (i + 1)).length = i + 1 ∧
    ((drained s incoming).drop (i + 1)).length =
      (drained s incoming).length - (i + 1) := by
  have hlt : i < (drained s incoming).length :=
    (List.findIdx?_eq_some_iff_findIdx_eq.mp hterm).1
  refine ⟨?_, ?_, ?_⟩
  · have h1 : ¬ i > cap := by omega
    have h2 : ¬ i + 1 > cap := by omega
    simp only [read_packet, if_neg hcount, hterm, if_neg h1, if_neg h2]
  · simp only [List.length_take]
    omega
  · simp only [List.length_drop]

/-- Witness for C2 at a concrete call: empty buffer, three new bytes
`[7, 0, 9]` with the terminator at offset 1, 64-byte caller buffer. -/
theorem read_packet_extracts_first_frame_witness :
    read_packet ⟨[]⟩ [7, 0, 9] 64 =
      (ReadResult.ok 2, ⟨(drained ⟨[]⟩ [7, 0, 9]).drop 2⟩,
        (drained ⟨[]⟩ [7, 0, 9]).take 2) ∧
    ((drained ⟨[]⟩ [7, 0, 9]).take 2).length = 2 ∧
    ((drained ⟨[]⟩ [7, 0, 9]).drop 2).length = (drained ⟨[]⟩ [7, 0, 9]).length - 2 :=
  read_packet_extracts_first_frame ⟨[]⟩ [7, 0, 9] 64 1 (by decide) (by decide)
    (by decide)

/-- C1 counterexample: with buffered bytes `[5, 0]` (a complete 2-byte frame,
terminator at offset 1), one new byte `7`, and a 0-byte caller buffer, the
call returns `Overflow` but the receive buffer becomes `[5, 0, 7]` — the
frame is NOT removed (removal would leave `[7]`), and the next call that
reads a new byte reports `Overflow` for the very same frame again. -/
theorem read_packet_overflow_drop_cex :
    read_packet ⟨[5, 0]⟩ [7] 0 = (ReadResult.overflow, ⟨[5, 0, 7]⟩, []) ∧
    (⟨[5, 0, 7]⟩ : Serial) ≠ ⟨[7]⟩ ∧
    read_packet ⟨[5, 0, 7]⟩ [8] 0 = (ReadResult.overflow, ⟨[5, 0, 7, 8]⟩, []) := by
  decide

/-- C1 amended: when the scan is reached and the first terminator offset `i`
exceeds the caller buffer's capacity, `read_packet` returns `Overflow` and
leaves the receive buffer unchanged apart from the newly polled bytes; in
particular the oversized frame is still buffered, with its terminator at the
same offset `i`, so subsequent calls that read new bytes report `Overflow`
for it again. -/
theorem read_packet_overflow_keeps_buffer (s : Serial) (incoming : List Nat)
    (cap i : Nat) (hcount : readCount s incoming ≠ 0)
    (hterm : (drained s incoming).findIdx? (fun b => b = TERMINATOR) = some i)
    (hover : cap < i) :
    read_packet s incoming cap = (ReadResult.overflow, ⟨drained s incoming⟩, []) ∧
    (⟨drained s incoming⟩ : Serial).buf.findIdx? (fun b => b = TERMINATOR) = some i := by
  refine ⟨?_, hterm⟩
  have h1 : i > cap := hover
  simp only [read_packet, if_neg hcount, hterm, if_pos h1]

/-- Witness for the amended C1 at a concrete call: buffered `[5, 0]`, one new
byte, 0-byte caller buffer. -/
theorem read_packet_overflow_keeps_buffer_witness :
    read_packet ⟨[5, 0]⟩ [7] 0 = (ReadResult.overflow, ⟨drained ⟨[5, 0]⟩ [7]⟩, []) ∧
    (⟨drained ⟨[5, 0]⟩ [7]⟩ : Serial).buf.findIdx? (fun b => b = TERMINATOR) = some 1 :=
  read_packet_overflow_keeps_buffer ⟨[5, 0]⟩ [7] 0 1 (by decide) (by decide)
    (by decide)

/-- C3: the code's fit check is `i > packet_buf.len()` (io.rs line 37), not
`i + 1 > packet_buf.len()`.  With one buffered byte `7`, a newly arrived
terminator `0` (offset `i = 1`), and a 1-byte caller buffer — so `i` equals
the output buffer's length — the check passes and the copy
`packet_buf[..i + 1].copy_from_slice(..)` slices 2 bytes from a 1-byte
buffer: a Rust panic, not the `Overflow` return the claim requires. -/
theorem read_packet_off_by_one_crash :
    read_packet ⟨[7]⟩ [0] 1 = (ReadResult.panik, ⟨[7, 0]⟩, []) ∧
    ReadResult.panik ≠ ReadResult.overflow := by
  decide

/-- C9 counterexample: a complete frame `[5, 0]` is already buffered, but the
poll yields zero new bytes; the call returns `Ok(0)` (`NoFrameYet`) without
scanning, so the buffered frame is NOT extracted (extraction would return
`Ok 2` with the frame copied out and the buffer emptied). -/
theorem read_packet_idle_no_scan_cex :
    read_packet ⟨[5, 0]⟩ [] 64 = (ReadResult.ok 0, ⟨[5, 0]⟩, []) ∧
    (ReadResult.ok 0, (⟨[5, 0]⟩ : Serial), ([] : List Nat)) ≠
      (ReadResult.ok 2, (⟨[]⟩ : Serial), [5, 0]) := by
  decide

/-- C9 amended: whenever polling the link yields zero new bytes (including
the would-block condition), `read_packet` returns `NoFrameYet` (`Ok(0)`)
immediately, copies nothing, and leaves the receive buffer untouched; the
already buffered bytes are not scanned on such a call, so a complete
buffered frame is only extracted by a later call that reads new data. -/
theorem read_packet_idle_returns_immediately (s : Serial) (incoming : List Nat)
    (cap : Nat) (h : readCount s incoming = 0) :
    read_packet s incoming cap = (ReadResult.ok 0, s, []) := by
  have hdr : drained s incoming = s.buf := by
    simp [drained, h]
  simp only [read_packet, if_pos h, hdr]

/-- Witness for the amended C9 at a concrete call: complete frame buffered,
no new bytes. -/
theorem read_packet_idle_returns_immediately_witness :
    read_packet ⟨[5, 0]⟩ [] 64 = (ReadResult.ok 0, ⟨[5, 0]⟩, []) :=
  read_packet_idle_returns_immediately ⟨[5, 0]⟩ [] 64 (by decide)

/-! ## perf.rs : animation engine -/

/-- perf.rs: `const FRAMES_PER_SECOND: u32 = 15;` -/
def FRAMES_PER_SECOND : Nat := 15

/-- perf.rs: `const FALL_PCT_PER_SECOND: f32 = 25.0;` -/
def FALL_PCT_PER_SECOND : ℚ := 25

/-- perf.rs: `const FALL_FRAC_PER_FRAME: f32 =
FALL_PCT_PER_SECOND / 100.0 / FRAMES_PER_SECOND as f32;` -/
def FALL_FRAC_PER_FRAME : ℚ :=
  FALL_PCT_PER_SECOND / 100 / (FRAMES_PER_SECOND : ℚ)

/-- shared/src/message.rs `PerfData` (the `f32` fields idealised as `ℚ`). -/
structure PerfData where
  all_cores_load : ℚ
  all_cores_avg : ℚ
  peak_core_load : ℚ
  memory_load : ℚ
  daytime : Bool
deriving DecidableEq, Repr

/-- perf.rs `State`: the previous and current `PerfData` states. -/
structure State where
  previous : Option PerfData
  current : Option PerfData
deriving DecidableEq, Repr

/-- perf.rs `update_cpu_load`: approximates a VU-meter — jumps up to higher
loads immediately, eases in to lower loads, clamped at the target. -/
def update_cpu_load (prev_load target_load : ℚ) : ℚ :=
  if target_load > prev_load then
    target_load
  else
    max target_load (prev_load - FALL_FRAC_PER_FRAME)

/-- One iteration of the frame loop body in perf.rs `update_state` (lines
60-68): the `PerfData` computed for this frame, which also becomes `prev`
for the next frame. -/
def stepFrame (prev target : PerfData) : PerfData :=
  { all_cores_load := update_cpu_load prev.all_cores_load target.all_cores_load
    all_cores_avg := target.all_cores_avg
    peak_core_load := update_cpu_load prev.peak_core_load target.peak_core_load
    memory_load := target.memory_load
    daytime := target.daytime }

/-- The frame loop of perf.rs `update_state` (`for frame in
0..FRAMES_PER_SECOND`): returns the final value of `prev` after `n`
iterations together with the frames handed to `app::show_perf::spawn_after`,
in scheduling order. -/
def runFrames : Nat → PerfData → PerfData → PerfData × List PerfData
  | 0, prev, _ => (prev, [])
  | n + 1, prev, target =>
      let f := stepFrame prev target
      let r := runFrames n f target
      (r.1, f :: r.2)

/-- perf.rs `update_state`: computes what to display from the stored state
(`input.previous`) and newly received state (`input.current`).  Returns the
resulting `State` (`result.previous` is stored for the next call,
`result.current` is rendered) together with the list of interpolated frames
the blended branch schedules via `app::show_perf::spawn_after`. -/
def update_state (input : State) : State × List PerfData :=
  match input.previous, input.current with
  | some prev, none => ({ previous := some prev, current := some prev }, [])
  | none, some new => ({ previous := some new, current := some new }, [])
  | some prev, some target =>
      let r := runFrames FRAMES_PER_SECOND prev target
      ({ previous := some r.1, current := none }, r.2)
  | none, none => ({ previous := none, current := none }, [])

/-- `update_cpu_load` never undershoots the target load. -/
theorem update_cpu_load_ge_target (q tq : ℚ) : tq ≤ update_cpu_load q tq := by
  unfold update_cpu_load
  split
  · exact le_refl tq
  · exact le_max_left _ _

/-- `update_cpu_load` falls by at most `FALL_FRAC_PER_FRAME` per frame. -/
theorem update_cpu_load_ge_sub (q tq : ℚ) :
    q - FALL_FRAC_PER_FRAME ≤ update_cpu_load q tq := by
  unfold update_cpu_load
  split
  · have hfrac : (0 : ℚ) ≤ FALL_FRAC_PER_FRAME := by
      unfold FALL_FRAC_PER_FRAME FALL_PCT_PER_SECOND FRAMES_PER_SECOND
      norm_num
    linarith
  · exact le_max_right _ _

/-- When the target does not exceed the current load, `update_cpu_load` does
not increase the load. -/
theorem update_cpu_load_le (q tq : ℚ) (h : tq ≤ q) : update_cpu_load q tq ≤ q := by
  unfold update_cpu_load
  split
  · linarith
  · have hfrac : (0 : ℚ) ≤ FALL_FRAC_PER_FRAME := by
      unfold FALL_FRAC_PER_FRAME FALL_PCT_PER_SECOND FRAMES_PER_SECOND
      norm_num
    refine max_le h ?_
    linarith

/-- Frame-loop invariant for a single interpolated field `g` (either
`peak_core_load` or `all_cores_load`): starting at or above the target,
every generated frame stays between `target` and the previous frame and
falls by at most `FALL_FRAC_PER_FRAME` per frame. -/
theorem runFrames_field_chain (g : PerfData → ℚ)
    (hg : ∀ prev target, g (stepFrame prev target) =
      update_cpu_load (g prev) (g target))
    (n : Nat) (p t : PerfData) (h : g t ≤ g p) :
    List.Chain
      (fun a b => g a - FALL_FRAC_PER_FRAME ≤ g b ∧ g b ≤ g a ∧ g t ≤ g b)
      p (runFrames n p t).2 := by
  induction n generalizing p with
  | zero => exact List.Chain.nil
  | succ n ih =>
      refine List.Chain.cons ⟨?_, ?_, ?_⟩ (ih (stepFrame p t) ?_)
      · rw [hg]
        exact update_cpu_load_ge_sub _ _
      · rw [hg]
        exact update_cpu_load_le _ _ h
      · rw [hg]
        exact update_cpu_load_ge_target _ _
      · rw [hg]
        exact update_cpu_load_ge_target _ _

/-- C6: for previous and target snapshots with
`target.peak_core_load < previous.peak_core_load`, the chain of generated
interpolation frames (with `previous` in front) is such that each frame's
`peak_core_load` falls by at most `FALL_FRAC_PER_FRAME`
(= `FALL_PCT_PER_SECOND / 100 / FRAMES_PER_SECOND`) from its predecessor,
never rises, and never drops below `target.peak_core_load`; likewise for
`all_cores_load` under the corresponding hypothesis. -/
theorem update_state_bounded_fall (p t : PerfData) :
    (t.peak_core_load < p.peak_core_load →
      List.Chain
        (fun a b => a.peak_core_load - FALL_FRAC_PER_FRAME ≤ b.peak_core_load ∧
          b.peak_core_load ≤ a.peak_core_load ∧
          t.peak_core_load ≤ b.peak_core_load)
        p (update_state ⟨some p, some t⟩).2) ∧
    (t.all_cores_load < p.all_cores_load →
      List.Chain
        (fun a b => a.all_cores_load - FALL_FRAC_PER_FRAME ≤ b.all_cores_load ∧
          b.all_cores_load ≤ a.all_cores_load ∧
          t.all_cores_load ≤ b.all_cores_load)
        p (update_state ⟨some p, some t⟩).2) := by
  constructor
  · intro h
    have := runFrames_field_chain PerfData.peak_core_load
      (fun prev target => rfl) FRAMES_PER_SECOND p t (le_of_lt h)
    simpa [update_state] using this
  · intro h
    have := runFrames_field_chain PerfData.all_cores_load
      (fun prev target => rfl) FRAMES_PER_SECOND p t (le_of_lt h)
    simpa [update_state] using this

/-- Witness for C6 at a concrete pair of snapshots: previous loads 1,
target loads 0. -/
theorem update_state_bounded_fall_witness :
    (List.Chain
      (fun a b => a.peak_core_load - FALL_FRAC_PER_FRAME ≤ b.peak_core_load ∧
        b.peak_core_load ≤ a.peak_core_load ∧
        (PerfData.mk 0 0 0 0 true).peak_core_load ≤ b.peak_core_load)
      (PerfData.mk 1 0 1 0 true)
      (update_state ⟨some (PerfData.mk 1 0 1 0 true),
        some (PerfData.mk 0 0 0 0 true)⟩).2) ∧
    (List.Chain
      (fun a b => a.all_cores_load - FALL_FRAC_PER_FRAME ≤ b.all_cores_load ∧
        b.all_cores_load ≤ a.all_cores_load ∧
        (PerfData.mk 0 0 0 0 true).all_cores_load ≤ b.all_cores_load)
      (PerfData.mk 1 0 1 0 true)
      (update_state ⟨some (PerfData.mk 1 0 1 0 true),
        some (PerfData.mk 0 0 0 0 true)⟩).2) := by
  have h := update_state_bounded_fall (PerfData.mk 1 0 1 0 true)
    (PerfData.mk 0 0 0 0 true)
  exact ⟨h.1 (by norm_num), h.2 (by norm_num)⟩

/-- The first frame the blended branch schedules is `stepFrame prev target`. -/
theorem runFrames_head (n : Nat) (p t : PerfData) :
    (runFrames (n + 1) p t).2.head? = some (stepFrame p t) := rfl

/-- C7: for previous and target snapshots with
`target.peak_core_load > previous.peak_core_load`, the very first generated
interpolation frame's `peak_core_load` equals `target.peak_core_load`
exactly; likewise per-field for `all_cores_load`; and the easing rule
yields the target when the target equals the current value. -/
theorem update_state_immediate_rise (p t : PerfData) :
    (p.peak_core_load < t.peak_core_load →
      (update_state ⟨some p, some t⟩).2.head?.map PerfData.peak_core_load =
        some t.peak_core_load) ∧
    (p.all_cores_load < t.all_cores_load →
      (update_state ⟨some p, some t⟩).2.head?.map PerfData.all_cores_load =
        some t.all_cores_load) ∧
    (∀ q : ℚ, update_cpu_load q q = q) := by
  have hhead : (update_state ⟨some p, some t⟩).2.head? = some (stepFrame p t) :=
    runFrames_head 14 p t
  refine ⟨?_, ?_, ?_⟩
  · intro h
    rw [hhead]
    show some (update_cpu_load p.peak_core_load t.peak_core_load) =
      some t.peak_core_load
    rw [update_cpu_load, if_pos h]
  · intro h
    rw [hhead]
    show some (update_cpu_load p.all_cores_load t.all_cores_load) =
      some t.all_cores_load
    rw [update_cpu_load, if_pos h]
  · intro q
    rw [update_cpu_load, if_neg (lt_irrefl q)]
    have hfrac : (0 : ℚ) ≤ FALL_FRAC_PER_FRAME := by
      unfold FALL_FRAC_PER_FRAME FALL_PCT_PER_SECOND FRAMES_PER_SECOND
      norm_num
    exact max_eq_left (by linarith)

/-- Witness for C7 at a concrete pair of snapshots: previous loads 0,
target loads 1, and the equal-loads rule evaluated at 1/2. -/
theorem update_state_immediate_rise_witness :
    (update_state ⟨some (PerfData.mk 0 0 0 0 true),
        some (PerfData.mk 1 1 1 1 true)⟩).2.head?.map PerfData.peak_core_load =
      some (PerfData.mk 1 1 1 1 true).peak_core_load ∧
    (update_state ⟨some (PerfData.mk 0 0 0 0 true),
        some (PerfData.mk 1 1 1 1 true)⟩).2.head?.map PerfData.all_cores_load =
      some (PerfData.mk 1 1 1 1 true).all_cores_load ∧
    update_cpu_load (1 / 2) (1 / 2) = 1 / 2 := by
  have h := update_state_immediate_rise (PerfData.mk 0 0 0 0 true)
    (PerfData.mk 1 1 1 1 true)
  exact ⟨h.1 (by norm_num), h.2.1 (by norm_num), h.2.2 (1 / 2)⟩

/-- C8: with no previous display state, `update_state` produces the target
as the single value to display (`result.current`), schedules no extra
interpolation frames, and stores the target itself as the new interpolation
basis (`result.previous`). -/
theorem update_state_no_history (t : PerfData) :
    update_state ⟨none, some t⟩ =
      ({ previous := some t, current := some t }, []) := rfl

/-- C10: with a stored previous snapshot but no new perf data,
`update_state` re-displays the previous snapshot unaltered
(`result.current = previous`), keeps it as the stored basis
(`result.previous = previous`), and schedules no interpolation frames. -/
theorem update_state_no_new_data (p : PerfData) :
    update_state ⟨some p, none⟩ =
      ({ previous := some p, current := some p }, []) := rfl

/-! ## main.rs : no-data watchdog -/

/-- main.rs: `const BLANK_SCREEN_MS: u64 = 30000;` -/
def BLANK_SCREEN_MS : Nat := 30000

/-- main.rs `no_data_timeout`'s local `enum TimeoutState`; `noneState` is the
Rust variant `None`. -/
inductive TimeoutState where
  | noneState : TimeoutState
  | noData : TimeoutState
  | clearScreen : TimeoutState
deriving DecidableEq, Repr

/-- Display side effect of one watchdog poll: nothing,
`gfx::draw_message(display, "No data received")`, or
`display.clear(Rgb565::BLACK)`. -/
inductive WatchdogEffect where
  | silent : WatchdogEffect
  | drawNoDataMsg : WatchdogEffect
  | clearDisplay : WatchdogEffect
deriving DecidableEq, Repr

/-- One iteration of the polling loop body of main.rs `no_data_timeout`
(lines 348-377), as a function of the current state and the elapsed
milliseconds since `msg_time`.  `elapsed = none` is
`checked_duration_since` returning `None` (the early `return` that changes
nothing). -/
def no_data_timeout_poll (state : TimeoutState) (elapsed : Option Nat) :
    TimeoutState × WatchdogEffect :=
  match elapsed with
  | none => (state, WatchdogEffect.silent)
  | some e =>
      if e < 2000 then
        (TimeoutState.noneState, WatchdogEffect.silent)
      else if e < BLANK_SCREEN_MS then
        if state ≠ TimeoutState.noData then
          (TimeoutState.noData, WatchdogEffect.drawNoDataMsg)
        else
          (state, WatchdogEffect.silent)
      else if state ≠ TimeoutState.clearScreen then
        (TimeoutState.clearScreen, WatchdogEffect.clearDisplay)
      else
        (state, WatchdogEffect.silent)

/-- Number of "no data received" draws over a sequence of watchdog polls. -/
def countDraws : TimeoutState → List Nat → Nat
  | _, [] => 0
  | s, e :: rest =>
      let r := no_data_timeout_poll s (some e)
      (if r.2 = WatchdogEffect.drawNoDataMsg then 1 else 0) + countDraws r.1 rest

/-- Number of display clears over a sequence of watchdog polls. -/
def countClears : TimeoutState → List Nat → Nat
  | _, [] => 0
  | s, e :: rest =>
      let r := no_data_timeout_poll s (some e)
      (if r.2 = WatchdogEffect.clearDisplay then 1 else 0) + countClears r.1 rest

/-- Once in the `NoData` state, further stale polls draw nothing. -/
theorem countDraws_noData (es : List Nat)
    (h : ∀ e ∈ es, 2000 ≤ e ∧ e < BLANK_SCREEN_MS) :
    countDraws TimeoutState.noData es = 0 := by
  induction es with
  | nil => rfl
  | cons e rest ih =>
      have he := h e (List.mem_cons_self e rest)
      have h1 : ¬ e < 2000 := by omega
      have h2 : e < BLANK_SCREEN_MS := he.2
      simp only [countDraws, no_data_timeout_poll, if_neg h1, if_pos h2,
        ne_eq, not_true_eq_false, if_neg, ite_false, reduceIte]
      rw [if_neg (by decide), Nat.zero_add]
      exact ih (fun x hx => h x (List.mem_cons_of_mem e hx))

/-- Once in the `ClearScreen` state, further blanked polls clear nothing. -/
theorem countClears_cleared (es : List Nat)
    (h : ∀ e ∈ es, BLANK_SCREEN_MS ≤ e) :
    countClears TimeoutState.clearScreen es = 0 := by
  induction es with
  | nil => rfl
  | cons e rest ih =>
      have he := h e (List.mem_cons_self e rest)
      have h1 : ¬ e < 2000 := by
        unfold BLANK_SCREEN_MS at he
        omega
      have h2 : ¬ e < BLANK_SCREEN_MS := by omega
      simp only [countClears, no_data_timeout_poll, if_neg h1, if_neg h2,
        ne_eq, not_true_eq_false, ite_false, reduceIte]
      rw [if_neg (by decide), Nat.zero_add]
      exact ih (fun x hx => h x (List.mem_cons_of_mem e hx))

/-- C5: the no-data watchdog behaves as a three-state machine.  With
`elapsed < 2000` ms any state resets to `None` (`Normal`) with no display
side effect — in particular a fresh message drives the state back to
`Normal` on the next poll.  With `2000 ≤ elapsed < 30000` the next state is
`NoData` (`Stale`) and the "no data received" message is drawn exactly when
the poll transitions into that state; over any run of such polls starting
from `None` it is drawn exactly once.  With `elapsed ≥ 30000` the next
state is `ClearScreen` (`Blanked`) and the display is cleared exactly when
the poll transitions into that state; over any run of such polls starting
from a non-`ClearScreen` state it is cleared exactly once. -/
theorem no_data_timeout_state_machine :
    (∀ (s : TimeoutState) (e : Nat), e < 2000 →
      no_data_timeout_poll s (some e) =
        (TimeoutState.noneState, WatchdogEffect.silent)) ∧
    (∀ (s : TimeoutState) (e : Nat), 2000 ≤ e → e < 30000 →
      (no_data_timeout_poll s (some e)).1 = TimeoutState.noData ∧
      ((no_data_timeout_poll s (some e)).2 = WatchdogEffect.drawNoDataMsg ↔
        s ≠ TimeoutState.noData)) ∧
    (∀ (s : TimeoutState) (e : Nat), 30000 ≤ e →
      (no_data_timeout_poll s (some e)).1 = TimeoutState.clearScreen ∧
      ((no_data_timeout_poll s (some e)).2 = WatchdogEffect.clearDisplay ↔
        s ≠ TimeoutState.clearScreen)) ∧
    (∀ es : List Nat, (∀ e ∈ es, 2000 ≤ e ∧ e < 30000) →
      countDraws TimeoutState.noneState es = min es.length 1) ∧
    (∀ (s : TimeoutState) (es : List Nat), s ≠ TimeoutState.clearScreen →
      (∀ e ∈ es, 30000 ≤ e) →
      countClears s es = min es.length 1) := by
  have hblank : BLANK_SCREEN_MS = 30000 := rfl
  refine ⟨?_, ?_, ?_, ?_, ?_⟩
  · intro s e he
    simp [no_data_timeout_poll, if_pos he]
  · intro s e h1 h2
    have h1n : ¬ e < 2000 := by omega
    have h2b : e < BLANK_SCREEN_MS := by omega
    cases s <;>
      simp [no_data_timeout_poll, if_neg h1n, if_pos h2b]
  · intro s e h1
    have h1n : ¬ e < 2000 := by omega
    have h2b : ¬ e < BLANK_SCREEN_MS := by omega
    cases s <;>
      simp [no_data_timeout_poll, if_neg h1n, if_neg h2b]
  · intro es h
    cases es with
    | nil => rfl
    | cons e rest =>
        have he := h e (List.mem_cons_self e rest)
        have h1n : ¬ e < 2000 := by omega
        have h2b : e < BLANK_SCREEN_MS := by omega
        simp only [countDraws, no_data_timeout_poll, if_neg h1n, if_pos h2b,
          ne_eq, reduceCtorEq, not_false_eq_true, ite_true, reduceIte]
        rw [countDraws_noData rest (fun x hx => by
          have := h x (List.mem_cons_of_mem e hx)
          omega)]
        simp only [List.length_cons]
        omega
  · intro s es hs h
    cases es with
    | nil => rfl
    | cons e rest =>
        have he := h e (List.mem_cons_self e rest)
        have h1n : ¬ e < 2000 := by omega
        have h2b : ¬ e < BLANK_SCREEN_MS := by omega
        have hstep : no_data_timeout_poll s (some e) =
            (TimeoutState.clearScreen, WatchdogEffect.clearDisplay) := by
          simp [no_data_timeout_poll, if_neg h1n, if_neg h2b, hs]
        simp only [countClears, hstep, reduceIte]
        rw [countClears_cleared rest (fun x hx => h x (List.mem_cons_of_mem e hx))]
        simp only [List.length_cons]
        omega

/-- Witness for C5 at concrete polls: elapsed 1999 ms from `ClearScreen`
resets to `Normal`; elapsed 2000 ms from `Normal` transitions to `NoData`
drawing the message; elapsed 30000 ms from `NoData` transitions to
`ClearScreen` clearing the display; the runs `[2000, 2500, 29999]` and
`[30000, 30250]` draw, respectively clear, exactly once. -/
theorem no_data_timeout_state_machine_witness :
    no_data_timeout_poll TimeoutState.clearScreen (some 1999) =
      (TimeoutState.noneState, WatchdogEffect.silent) ∧
    (no_data_timeout_poll TimeoutState.noneState (some 2000)).1 =
      TimeoutState.noData ∧
    ((no_data_timeout_poll TimeoutState.noneState (some 2000)).2 =
      WatchdogEffect.drawNoDataMsg ↔ TimeoutState.noneState ≠ TimeoutState.noData) ∧
    (no_data_timeout_poll TimeoutState.noData (some 30000)).1 =
      TimeoutState.clearScreen ∧
    ((no_data_timeout_poll TimeoutState.noData (some 30000)).2 =
      WatchdogEffect.clearDisplay ↔ TimeoutState.noData ≠ TimeoutState.clearScreen) ∧
    countDraws TimeoutState.noneState [2000, 2500, 29999] =
      min ([2000, 2500, 29999] : List Nat).length 1 ∧
    countClears TimeoutState.noData [30000, 30250] =
      min ([30000, 30250] : List Nat).length 1 := by
  have h := no_data_timeout_state_machine
  refine ⟨h.1 TimeoutState.clearScreen 1999 (by decide), ?_, ?_, ?_, ?_, ?_, ?_⟩
  · exact (h.2.1 TimeoutState.noneState 2000 (by decide) (by decide)).1
  · exact (h.2.1 TimeoutState.noneState 2000 (by decide) (by decide)).2
  · exact (h.2.2.1 TimeoutState.noData 30000 (by decide)).1
  · exact (h.2.2.1 TimeoutState.noData 30000 (by decide)).2
  · exact h.2.2.2.1 [2000, 2500, 29999] (by decide)
  · exact h.2.2.2.2 TimeoutState.noData [30000, 30250] (by decide) (by decide)

/-! ## main.rs : packet handling and USB interrupt -/

/-- shared/src/message.rs `FromHost`. -/
inductive FromHost where
  | clearScreenMsg : FromHost
  | showPerf : PerfData → FromHost
deriving DecidableEq, Repr

/-- Observable effects of main.rs `handle_packet` (lines 261-280): whether
the `Err` arm logged `"Failed to deserialize message"`, whether it then
executed the `asm::bkpt()` breakpoint instruction, whether `msg_time` was
stamped with `Mono::now()`, and the snapshot forwarded to
`handle_perf::spawn`. -/
structure PacketFx where
  loggedError : Bool
  breakpointHit : Bool
  stampedTime : Bool
  forwarded : Option PerfData
deriving DecidableEq, Repr

/-- main.rs `handle_packet`: the body is a `match` on the decode result of
`postcard::from_bytes_cobs` (an external crate), so the function is embedded
over that result.  `Ok(ShowPerf(p))` stamps `msg_time` and spawns
`handle_perf(p)`; `Ok(ClearScreen)` does nothing further; `Err(_)` logs an
error and executes `asm::bkpt()`. -/
def handle_packet (decoded : Except Unit FromHost) : PacketFx :=
  match decoded with
  | Except.ok (FromHost.showPerf p) =>
      { loggedError := false, breakpointHit := false, stampedTime := true,
        forwarded := some p }
  | Except.ok FromHost.clearScreenMsg =>
      { loggedError := false, breakpointHit := false, stampedTime := false,
        forwarded := none }
  | Except.error _ =>
      { loggedError := true, breakpointHit := true, stampedTime := false,
        forwarded := none }

/-- `ReadResult.isErr` is true exactly on the outcomes on which the Rust
caller's `.unwrap()` panics (an `Err` return) or the panic raised inside
`read_packet` propagates. -/
def ReadResult.isErr : ReadResult → Bool
  | ReadResult.ok _ => false
  | ReadResult.overflow => true
  | ReadResult.panik => true

/-- Observable effects of main.rs `handle_usb_event` (lines 382-389):
whether the task panicked (via `.unwrap()` on the `read_packet` result, or
a panic propagating out of `read_packet` itself), and the packet bytes
handed to `handle_packet::spawn` when a complete frame of positive length
was returned. -/
structure UsbFx where
  panicked : Bool
  spawnedPacket : Option (List Nat)
deriving DecidableEq, Repr

/-- main.rs `handle_usb_event`: calls `read_packet` with the 64-byte local
`result` buffer (`cap = BUF_BYTES`), unwraps, and spawns `handle_packet`
when `len > 0`. -/
def handle_usb_event (s : Serial) (incoming : List Nat) : UsbFx :=
  match read_packet s incoming BUF_BYTES with
  | (ReadResult.ok n, _, copied) =>
      { panicked := false, spawnedPacket := if 0 < n then some copied else none }
  | (ReadResult.overflow, _, _) => { panicked := true, spawnedPacket := none }
  | (ReadResult.panik, _, _) => { panicked := true, spawnedPacket := none }

/-- C4 counterexample: on a decode failure, `handle_packet` does not merely
log and continue — after logging it executes the `asm::bkpt()` breakpoint
instruction, halting the receive path.  This refutes the claim that a
decode failure has no effect beyond a log entry. -/
theorem handle_packet_decode_failure_cex :
    handle_packet (Except.error ()) =
      { loggedError := true, breakpointHit := true, stampedTime := false,
        forwarded := none } ∧
    ({ loggedError := true, breakpointHit := true, stampedTime := false,
        forwarded := none } : PacketFx).breakpointHit ≠ false := by
  decide

/-- C4 amended: a decode failure is logged and then executes a breakpoint
instruction (`asm::bkpt()`), and any `read_packet` error — such as a
receive-buffer overflow — is propagated by `.unwrap()` in
`handle_usb_event` as a panic; neither condition is a log-only, continue
path.  Successful decodes hit no breakpoint. -/
theorem usb_errors_are_fatal :
    ((handle_packet (Except.error ())).breakpointHit = true ∧
      (handle_packet (Except.error ())).loggedError = true) ∧
    (∀ msg : FromHost, (handle_packet (Except.ok msg)).breakpointHit = false) ∧
    (∀ (s : Serial) (incoming : List Nat),
      (handle_usb_event s incoming).panicked =
        (read_packet s incoming BUF_BYTES).1.isErr) := by
  refine ⟨⟨rfl, rfl⟩, ?_, ?_⟩
  · intro msg
    cases msg <;> rfl
  · intro s incoming
    unfold handle_usb_event
    rcases h : read_packet s incoming BUF_BYTES with ⟨r, s2, copied⟩
    cases r <;> rfl
